import Mathlib

/-
Verification of the PennyLane-Orquestra remote-execution orchestration
subsystem.  The definitions below are a shallow embedding of the Python
source files `pennylane_orquestra/gen_workflow.py`,
`pennylane_orquestra/orquestra_device.py` and
`pennylane_orquestra/cli_actions.py`: Python dictionaries become Lean
structures, Python lists become Lean lists, and the external CLI / remote
platform is modelled by explicit oracle parameters.  Machine-irrelevant
payload values (the numeric expectation values coming back from the remote
platform) are kept as an arbitrary type `α`; the Python literal `1` used
for identity observables is passed explicitly as `one`.
-/

namespace PLOrquestra

/-- One entry of a step's `inputs` list.  In the source each input is a
single-key dictionary such as `\x7b"backend_specs": ..., "type": "string"\x7d`;
`key` records the single data key, `value` its payload and `type` the
constant type tag. -/
structure StepInput where
  key : String
  value : String
  type : String
  deriving DecidableEq, Repr

/-- One entry of a step's `outputs` list (`\x7bname, type, path\x7d`). -/
structure StepOutput where
  name : String
  type : String
  path : String
  deriving DecidableEq, Repr

/-- A workflow step, embedding the nested dictionary produced by
`step_dictionary` in `gen_workflow.py` (name, `config.runtime.language`,
`config.runtime.imports`, `config.runtime.parameters.file/function`,
optional `config.resources`, `inputs`, `outputs`). -/
structure Step where
  name : String
  language : String
  runtimeImports : List String
  runtimeFile : String
  runtimeFunction : String
  resources : Option String
  inputs : List StepInput
  outputs : List StepOutput
  deriving DecidableEq, Repr

/-- A backend import descriptor (e.g. `forest_import` in
`gen_workflow.py`): name, type tag, git repository and branch. -/
structure BackendImport where
  name : String
  type : String
  repository : String
  branch : String
  deriving DecidableEq, Repr

/-- The workflow document assembled by `gen_expval_workflow`. -/
structure Workflow where
  apiVersion : String
  name : String
  imports : List BackendImport
  steps : List Step
  types : List String
  deriving DecidableEq, Repr

/-- `forest_import` from `gen_workflow.py`. -/
def forest_import : BackendImport :=
  ⟨"qe-forest", "git", "git@github.com:zapatacomputing/qe-forest.git", "dev"⟩

/-- `qiskit_import` from `gen_workflow.py`. -/
def qiskit_import : BackendImport :=
  ⟨"qe-qiskit", "git", "git@github.com:zapatacomputing/qe-qiskit.git", "dev"⟩

/-- `qulacs_import` from `gen_workflow.py`. -/
def qulacs_import : BackendImport :=
  ⟨"qe-qulacs", "git", "git@github.com:zapatacomputing/qe-qulacs.git", "dev"⟩

/-- `backend_import_db`: the registry of supported backend components,
a dictionary keyed by component name (embedded as an association list in
insertion order). -/
def backend_import_db : List (String × BackendImport) :=
  [("qe-forest", forest_import), ("qe-qiskit", qiskit_import), ("qe-qulacs", qulacs_import)]

/-- `step_dictionary(name_suffix)` from `gen_workflow.py`: a fresh step
whose name is `"run-circuit-and-get-expval-" + name_suffix`, with the fixed
base runtime imports, the fixed entry point, no resources and no inputs. -/
def step_dictionary (name_suffix : String) : Step :=
  { name := "run-circuit-and-get-expval-" ++ name_suffix
    language := "python3"
    runtimeImports := ["pennylane_orquestra", "z-quantum-core", "qe-openfermion"]
    runtimeFile := "pennylane_orquestra/steps/expval.py"
    runtimeFunction := "run_circuit_and_get_expval"
    resources := none
    inputs := []
    outputs := [⟨"expval", "expval", "/app/expval.json"⟩] }

/-- `_get_expval_template()` from `gen_workflow.py`: the workflow skeleton
with the three fixed git imports, no steps yet, and the declared types. -/
def _get_expval_template : Workflow :=
  { apiVersion := "io.orquestra.workflow/1.0.0"
    name := "expval"
    imports :=
      [⟨"pennylane_orquestra", "git",
         "git@github.com:PennyLaneAI/pennylane-orquestra.git", "main"⟩,
       ⟨"z-quantum-core", "git",
         "git@github.com:zapatacomputing/z-quantum-core.git", "dev"⟩,
       ⟨"qe-openfermion", "git",
         "git@github.com:zapatacomputing/qe-openfermion.git", "dev"⟩]
    steps := []
    types := ["circuit", "expval"] }

/-- The body of the `for idx, (circ, ops) in enumerate(zip(circuits,
operators))` loop of `gen_expval_workflow`: start from
`step_dictionary(str(idx))`, attach `resources` when provided, append the
backend component to the step's runtime imports, and set the inputs to the
triple `backend_specs`, `operators`, `circuit` (each tagged `"string"`). -/
def step_with_inputs (component backend_specs : String) (resources : Option String)
    (idx : Nat) (circ ops : String) : Step :=
  let base := step_dictionary (toString idx)
  { base with
      runtimeImports := base.runtimeImports ++ [component]
      resources := resources
      inputs :=
        [⟨"backend_specs", backend_specs, "string"⟩,
         ⟨"operators", ops, "string"⟩,
         ⟨"circuit", circ, "string"⟩] }

/-- The loop of `gen_expval_workflow` over `enumerate(zip(circuits,
operators))`, building the steps in order with indices starting at `idx`. -/
def build_steps (component backend_specs : String) (resources : Option String) :
    Nat → List (String × String) → List Step
  | _, [] => []
  | idx, (circ, ops) :: rest =>
    step_with_inputs component backend_specs resources idx circ ops ::
      build_steps component backend_specs resources (idx + 1) rest

/-- `gen_expval_workflow(component, backend_specs, circuits, operators,
resources=...)` from `gen_workflow.py`.  An unsupported component raises
`ValueError("The specified backend component is not supported.")`,
embedded as `Except.error` with that message.  Otherwise the template is
extended with the backend import and one step per element of
`zip(circuits, operators)`. -/
def gen_expval_workflow (component backend_specs : String)
    (circuits operators : List String) (resources : Option String) :
    Except String Workflow :=
  match backend_import_db.lookup component with
  | none => .error "The specified backend component is not supported."
  | some backend_import =>
    let tmpl := _get_expval_template
    .ok { tmpl with
            imports := tmpl.imports ++ [backend_import]
            steps := build_steps component backend_specs resources 0
                       (circuits.zip operators) }

/-- One character of Python's `json.dumps` escaping for strings (the
operator payloads contain no control characters, so only the backslash and
the double quote need escaping). -/
def json_escape_char (c : Char) : String :=
  if c = '\\' then "\\\\" else if c = '"' then "\\\"" else String.singleton c

/-- Python `json.dumps` of a single string (no control characters). -/
def json_dumps_string (s : String) : String :=
  "\"" ++ String.join (s.data.map json_escape_char) ++ "\""

/-- Python `json.dumps` of a list of strings, with the default `", "`
separator, as used on the serialized operator lists. -/
def json_dumps_str_list (l : List String) : String :=
  "[" ++ String.intercalate ", " (l.map json_dumps_string) ++ "]"

/-- An observable as seen by `process_observables`: either the identity
(`pennylane.ops.Identity`) or a non-identity observable carrying its
serialized operator string (the output of `serialize_operator`, which is
opaque to the orchestration logic). -/
inductive Obs where
  | identity : Obs
  | nonId : String → Obs
  deriving DecidableEq, Repr

/-- A circuit as seen by the execution paths: its serialized OpenQASM form
(the output of `serialize_circuit`, opaque here) together with its list of
observables. -/
structure Circuit where
  qasm : String
  observables : List Obs
  deriving DecidableEq, Repr

/-- The loop body of `OrquestraDevice.process_observables`: append the
serialized form of a non-identity observable to `ops` (first component),
or the index of an identity observable to `identity_indices` (second
component). -/
def po_step (acc : List String × List Nat) (p : Nat × Obs) : List String × List Nat :=
  match p.2 with
  | .nonId s => (acc.1 ++ [s], acc.2)
  | .identity => (acc.1, acc.2 ++ [p.1])

/-- `OrquestraDevice.process_observables`: one pass over the enumerated
observables, appending the serialized form of each non-identity observable
to `ops` and the index of each identity observable to `identity_indices`. -/
def process_observables (observables : List Obs) : List String × List Nat :=
  observables.enum.foldl po_step ([], [])

/-- Recursive characterization of `process_observables` starting at a
given enumeration index: the serialized non-identity observables in order,
and the absolute indices of the identity observables in ascending order. -/
def po_aux : Nat → List Obs → List String × List Nat
  | _, [] => ([], [])
  | i, .identity :: rest => ((po_aux (i + 1) rest).1, i :: (po_aux (i + 1) rest).2)
  | i, .nonId s :: rest => (s :: (po_aux (i + 1) rest).1, (po_aux (i + 1) rest).2)

/-- The number of non-identity observables in a list. -/
def countNonId : List Obs → Nat
  | [] => 0
  | .identity :: rest => countNonId rest
  | .nonId _ :: rest => countNonId rest + 1

/-- The reference reassembly of a result list: walk the observables in
order, emitting `one` at each identity position and consuming the next
remote value at each non-identity position. -/
def spliceOnes {α : Type} (one : α) : List Obs → List α → List α
  | [], _ => []
  | .identity :: rest, vals => one :: spliceOnes one rest vals
  | .nonId _ :: _, [] => []
  | .nonId _ :: rest, v :: vals => v :: spliceOnes one rest vals

/-- Python's `list.insert(i, x)`: insert `x` before position `i`, clamping
`i` to the length of the list. -/
def pyInsert {α : Type} (l : List α) (i : Nat) (x : α) : List α :=
  l.take i ++ x :: l.drop i

/-- `OrquestraDevice.insert_identity_res_batch(results, empty_obs_list,
identity_indices)`: first insert an empty sublist at each index of
`empty_obs_list`, then, for each key `list_idx` of the
`identity_indices` dictionary (keys `0..n-1` in insertion order, embedded
as a list indexed by position), insert `1` into `results[list_idx]` at
each recorded identity index. -/
def insert_identity_res_batch {α : Type} (one : α) (results : List (List α))
    (empty_obs_list : List Nat) (identity_indices : List (List Nat)) : List (List α) :=
  let withEmpty := empty_obs_list.foldl (fun acc idx => pyInsert acc idx []) results
  identity_indices.enum.foldl
    (fun acc p => acc.modify (fun res => p.2.foldl (fun r i => pyInsert r i one) res) p.1)
    withEmpty

/-- The observable outcome of a device execution: the workflow submitted
to the remote platform, if any, and the final list of result values. -/
structure SingleOutcome (α : Type) where
  submitted : Option Workflow
  results : List α
  deriving DecidableEq, Repr

/-- The observable outcome of a multi-step device execution. -/
structure ExecOutcome (α : Type) where
  submitted : Option Workflow
  results : List (List α)
  deriving DecidableEq, Repr

/-- `OrquestraDevice.execute` (single-circuit path), lines 391-445 of
`orquestra_device.py`, with the remote round trip
(`qe_submit` + `loop_until_finished` + `single_step_results`) modelled by
the oracle `remote`, which returns the result list of the single step of
the submitted workflow.  If every observable is the identity no workflow
is submitted and `[1] * len(identity_indices)` is returned; otherwise the
single-step workflow is built and the value `1` is inserted into the
remote results at each identity index (ascending order). -/
def execute {α : Type} (one : α) (component backend_specs : String)
    (circuit : Circuit) (resources : Option String)
    (remote : Workflow → List α) : Except String (SingleOutcome α) :=
  let processed := process_observables circuit.observables
  let ops := processed.1
  let identity_indices := processed.2
  if ops.isEmpty then
    .ok ⟨none, List.replicate identity_indices.length one⟩
  else
    let ops_json := json_dumps_str_list ops
    match gen_expval_workflow component backend_specs [circuit.qasm] [ops_json] resources with
    | .error e => .error e
    | .ok workflow =>
      let results := remote workflow
      let results := identity_indices.foldl (fun r idx => pyInsert r idx one) results
      .ok ⟨some workflow, results⟩

/-- `OrquestraDevice.multi_step_execute` (batched path), lines 524-602 of
`orquestra_device.py`, with the remote round trip
(`qe_submit` + `loop_until_finished` + `multiple_steps_results`) modelled
by the oracle `remote`, which returns the per-step result lists of the
submitted workflow.  Mirrors the source control flow: compute
`ops`/`identity_indices`/`empty_obs_list` per circuit; if some `ops`
entries are empty and all are empty, return locally synthesized all-ones
lists without submitting; if only some are empty, drop the empty entries;
then JSON-encode each operator list, build the workflow over *all* qasm
circuits zipped with the (possibly filtered) operator lists, and splice
identity results back into the remote results. -/
def multi_step_execute {α : Type} (one : α) (component backend_specs : String)
    (circuits : List Circuit) (resources : Option String)
    (remote : Workflow → List (List α)) : Except String (ExecOutcome α) :=
  let qasm_circuits := circuits.map (fun c => c.qasm)
  let processed := circuits.map (fun c => process_observables c.observables)
  let ops0 := processed.map (fun p => p.1)
  let identity_indices := processed.map (fun p => p.2)
  let empty_obs_list :=
    ops0.enum.foldl (fun acc p => if p.2.isEmpty then acc ++ [p.1] else acc) []
  let submit := fun (ops : List (List String)) =>
    let ops_json := ops.map json_dumps_str_list
    match gen_expval_workflow component backend_specs qasm_circuits ops_json resources with
    | .error e => Except.error e
    | .ok workflow =>
      let results := remote workflow
      let results := insert_identity_res_batch one results empty_obs_list identity_indices
      Except.ok ⟨some workflow, results⟩
  if !(ops0.all fun o => !o.isEmpty) then
    if !(ops0.any fun o => !o.isEmpty) then
      .ok ⟨none, circuits.map (fun c => List.replicate c.observables.length one)⟩
    else
      submit (ops0.filter fun o => !o.isEmpty)
  else
    submit ops0

/-- One entry of the decoded result artifact: the record stored under an
opaque per-step key, with its `stepName` and the `"expval" -> "list"`
payload. -/
structure StepRecord (α : Type) where
  stepName : String
  expvalList : List α
  deriving DecidableEq, Repr

/-- Python string `<=` (lexicographic on code points), on character
lists. -/
def charListLe : List Char → List Char → Bool
  | [], _ => true
  | _ :: _, [] => false
  | a :: as, b :: bs => if a < b then true else if b < a then false else charListLe as bs

/-- Python string `<=` (lexicographic on code points). -/
def strLe (a b : String) : Bool := charListLe a.data b.data

/-- Stable insertion of an artifact entry into a list sorted by
`stepName` (an entry is placed before the first entry whose key it is
less than or equal to, keeping equal keys in their original order). -/
def orderedInsertStep {α : Type} (x : String × StepRecord α) :
    List (String × StepRecord α) → List (String × StepRecord α)
  | [] => [x]
  | y :: ys =>
    if strLe x.2.stepName y.2.stepName then x :: y :: ys else y :: orderedInsertStep x ys

/-- Python's `sorted(data.items(), key=lambda entry: entry[1]["stepName"])`:
a stable ascending sort of the artifact entries by their `stepName`
string. -/
def sortByStepName {α : Type} :
    List (String × StepRecord α) → List (String × StepRecord α)
  | [] => []
  | x :: xs => orderedInsertStep x (sortByStepName xs)

/-- `OrquestraDevice.multiple_steps_results`, result-processing part
(lines 622-637 of `orquestra_device.py`): sort the artifact entries by
their `stepName` string and extract each step's `expval.list` payload, in
that sorted order.  The artifact `data` is the decoded JSON dictionary in
insertion order. -/
def multiple_steps_results {α : Type} (data : List (String × StepRecord α)) :
    List (List α) :=
  (sortByStepName data).map (fun p => p.2.expvalList)

/-- Whether `needle` equals a leading segment of `haystack` (character
lists). -/
def charStartsWith : List Char → List Char → Bool
  | [], _ => true
  | _ :: _, [] => false
  | a :: as, b :: bs => a == b && charStartsWith as bs

/-- Python's substring test `needle in haystack`. -/
def strContains (needle haystack : String) : Bool :=
  (List.range (haystack.data.length + 1)).any
    (fun i => charStartsWith needle.data (haystack.data.drop i))

/-- Helper for `pySplitWs`: walk the characters keeping the (reversed)
current token in `acc`, emitting a token at each maximal non-whitespace
run. -/
def wsTokens : List Char → List Char → List String
  | [], acc => if acc.isEmpty then [] else [String.mk acc.reverse]
  | c :: cs, acc =>
    if c.isWhitespace then
      if acc.isEmpty then wsTokens cs [] else String.mk acc.reverse :: wsTokens cs []
    else wsTokens cs (c :: acc)

/-- Python's `str.split()` with no separator: split on runs of whitespace,
discarding empty tokens. -/
def pySplitWs (s : String) : List String := wsTokens s.data []

/-- The two failure modes of `qe_submit`: the submission output lacked the
substring `"Success"` (a `ValueError` carrying the raw output lines), or a
successful-looking output did not have the expected line/token shape (a
`ValueError` with the fixed unexpected-response message). -/
inductive SubmitError where
  | submissionError : List String → SubmitError
  | responseFormatError : String → SubmitError
  deriving DecidableEq, Repr

/-- The fixed message `unexpected_resp_msg` of `qe_submit`. -/
def unexpected_resp_msg : String :=
  "Received an unexpected response after submitting workflow."

instance exceptDecEq {ε α : Type} [DecidableEq ε] [DecidableEq α] :
    DecidableEq (Except ε α) := fun a b =>
  match a, b with
  | .error e, .error f =>
    if h : e = f then .isTrue (by rw [h]) else .isFalse (by simp [h])
  | .error _, .ok _ => .isFalse (by simp)
  | .ok _, .error _ => .isFalse (by simp)
  | .ok x, .ok y =>
    if h : x = y then .isTrue (by rw [h]) else .isFalse (by simp [h])

/-- The outcome of `qe_submit`: whether the workflow file was removed, and
either the extracted workflow id or the error raised. -/
structure SubmitOutcome where
  fileDeleted : Bool
  result : Except SubmitError String
  deriving DecidableEq, Repr

/-- `qe_submit(filepath, keep_file)` from `cli_actions.py`, lines 54-95,
applied to `res`, the list of stdout lines of the external
`qe submit workflow` call.  If `"Success"` is not a substring of the
concatenated lines, raise `ValueError(res)` (the file is not touched).
Otherwise the file is removed when `keep_file` is false, and only then is
the workflow id extracted as the last whitespace-split token of the second
line; a missing second line or a token-less second line raises
`ValueError(unexpected_resp_msg)`.  (The source's `isinstance(res, list)`
guard is always true for `readlines` output and is omitted.) -/
def qe_submit (res : List String) (keep_file : Bool) : SubmitOutcome :=
  if !(strContains "Success" (String.join res)) then
    ⟨false, .error (.submissionError res)⟩
  else
    let fileDeleted := !keep_file
    match res[1]? with
    | none => ⟨fileDeleted, .error (.responseFormatError unexpected_resp_msg)⟩
    | some line =>
      match (pySplitWs line).getLast? with
      | none => ⟨fileDeleted, .error (.responseFormatError unexpected_resp_msg)⟩
      | some workflow_id => ⟨fileDeleted, .ok workflow_id⟩

/-- The environment of one `loop_until_finished` run, indexed by the
iteration counter `tries` (first iteration has `tries = 1`):
`elapsed t` is `time.time() - start` observed at iteration `t`, `status t`
the stdout lines of `workflow_details` if queried at iteration `t`,
`results t` the stdout lines of `workflow_results` at iteration `t`, and
`urlOk loc` whether `urllib.request.urlopen(loc)` succeeds. -/
structure PollEnv where
  elapsed : Nat → Nat
  status : Nat → List String
  results : Nat → List String
  urlOk : String → Bool

/-- The outcome of one iteration of the polling loop. -/
inductive IterResult where
  | timedOut : List String → IterResult
  | remoteFailed : List String → IterResult
  | success : String → IterResult
  | notReady : IterResult
  deriving DecidableEq, Repr

/-- The failed-status test of `loop_until_finished`:
`"Failed" in "".join(status).split()`. -/
def failed_token_check (status : List String) : Bool :=
  (pySplitWs (String.join status)).contains "Failed"

/-- The location extraction of `loop_until_finished`:
`results[1].split()[1]`, with an `IndexError` (second line or second token
missing) treated as `none`. -/
def poll_location (results : List String) : Option String :=
  (results.get? 1).bind (fun line => (pySplitWs line).get? 1)

/-- The tail of one loop iteration after the timeout and failed-status
checks: extract a location from the results text and dereference it;
structural or dereference failure means "not ready yet". -/
def loop_body_after_check (env : PollEnv) (tries : Nat) : IterResult :=
  match poll_location (env.results tries) with
  | none => .notReady
  | some loc => if env.urlOk loc then .success loc else .notReady

/-- One iteration of the `while` loop of `loop_until_finished`
(`cli_actions.py`, lines 182-225) for iteration counter `tries` (already
incremented): first the timeout check (`time.time() - start > timeout`),
then — only when `tries % 20 == 0` — the failed-status check on a fresh
status query, then the location extraction.  The second component records
whether the failed-status check was performed in this iteration. -/
def loop_iteration (env : PollEnv) (timeout tries : Nat) : IterResult × Bool :=
  if env.elapsed tries > timeout then (.timedOut (env.status tries), false)
  else if tries % 20 == 0 then
    if failed_token_check (env.status tries) then (.remoteFailed (env.status tries), true)
    else (loop_body_after_check env tries, true)
  else (loop_body_after_check env tries, false)

/-- A terminal outcome of the polling loop, tagged with the iteration at
which it occurred.  `outOfFuel` is an artifact of the fuelled embedding of
the unbounded `while` loop. -/
inductive PollOutcome where
  | timedOut : Nat → List String → PollOutcome
  | remoteFailed : Nat → List String → PollOutcome
  | success : Nat → String → PollOutcome
  | outOfFuel : Nat → PollOutcome
  deriving DecidableEq, Repr

/-- The `while query_results` loop of `loop_until_finished`, fuelled:
starting after iteration `tries`, run up to `fuel` further iterations,
propagating the first terminal iteration result. -/
def loop_until_finished_from (env : PollEnv) (timeout : Nat) :
    Nat → Nat → PollOutcome
  | 0, tries => .outOfFuel tries
  | fuel + 1, tries =>
    let t := tries + 1
    match (loop_iteration env timeout t).1 with
    | .timedOut s => .timedOut t s
    | .remoteFailed s => .remoteFailed t s
    | .success loc => .success t loc
    | .notReady => loop_until_finished_from env timeout fuel t

/-- `loop_until_finished(workflow_id, timeout)` up to the point where the
loop exits (the subsequent tarfile download and JSON decoding are outside
the loop).  `tries` starts at `0` and is incremented at the top of each
iteration. -/
def loop_until_finished (env : PollEnv) (timeout fuel : Nat) : PollOutcome :=
  loop_until_finished_from env timeout fuel 0

/-- The step inputs of the workflow submitted by a multi-step execution,
if one was submitted and no error was raised. -/
def okSubmittedInputs {α : Type} (e : Except String (ExecOutcome α)) :
    Option (List (List StepInput)) :=
  match e with
  | .ok out => out.submitted.map (fun wf => wf.steps.map (fun s => s.inputs))
  | .error _ => none

/-- The final per-circuit result lists of a multi-step execution, if no
error was raised. -/
def okResults {α : Type} (e : Except String (ExecOutcome α)) :
    Option (List (List α)) :=
  match e with
  | .ok out => some out.results
  | .error _ => none

/-- A 12-step result artifact whose step names follow the
`run-circuit-and-get-expval-<index>` convention with suffixes `0..11`,
presented in reverse insertion order; step `k` carries the result list
`[k]`. -/
def twelveStepArtifact : List (String × StepRecord Int) :=
  (List.range 12).reverse.map
    (fun k => (toString k, ⟨"run-circuit-and-get-expval-" ++ toString k, [Int.ofNat k]⟩))

/-- A batch in which the first circuit has an entirely-identity observable
list and the second does not. -/
def mixedIdentityBatch : List Circuit :=
  [⟨"qasm0", [.identity]⟩, ⟨"qasm1", [.nonId "1 [Z0]"]⟩]

/-- A polling environment in which no time passes, every status query
reports a failed step, and no result location is ever available. -/
def failedPollEnv : PollEnv :=
  ⟨fun _ => 0, fun _ => ["Status: Failed"], fun _ => [], fun _ => false⟩

/-- A concrete circuit with identity observables at positions 0 and 2 and
non-identity observables at positions 1 and 3. -/
def witnessCircuit : Circuit :=
  ⟨"qasm", [Obs.identity, Obs.nonId "1 [Z0]", Obs.identity, Obs.nonId "1 [X0]"]⟩

/-- A concrete batch in which every circuit's observable list consists
only of identity observables. -/
def allIdentityBatch : List Circuit :=
  [⟨"q0", [Obs.identity]⟩, ⟨"q1", [Obs.identity, Obs.identity]⟩]

lemma po_foldl (l : List Obs) :
    ∀ (i : Nat) (a : List String) (b : List Nat),
      (List.enumFrom i l).foldl po_step (a, b) =
        (a ++ (po_aux i l).1, b ++ (po_aux i l).2) := by
  induction l with
  | nil => intro i a b; simp [po_aux]
  | cons o rest ih =>
    intro i a b
    cases o with
    | identity =>
      simp only [List.enumFrom_cons, List.foldl_cons, po_step, po_aux, ih]
      simp
    | nonId s =>
      simp only [List.enumFrom_cons, List.foldl_cons, po_step, po_aux, ih]
      simp

lemma process_observables_eq (l : List Obs) :
    process_observables l = po_aux 0 l := by
  have h := po_foldl l 0 [] []
  simpa [process_observables, List.enum] using h

lemma po_aux_fst_length (l : List Obs) : ∀ i, (po_aux i l).1.length = countNonId l := by
  induction l with
  | nil => intro i; simp [po_aux, countNonId]
  | cons o rest ih =>
    intro i
    cases o with
    | identity => simpa [po_aux, countNonId] using ih (i + 1)
    | nonId s => simpa [po_aux, countNonId] using ih (i + 1)

lemma po_aux_lengths (l : List Obs) :
    ∀ i, (po_aux i l).1.length + (po_aux i l).2.length = l.length := by
  induction l with
  | nil => intro i; simp [po_aux]
  | cons o rest ih =>
    intro i
    cases o with
    | identity =>
      have := ih (i + 1)
      simp only [po_aux, List.length_cons]
      omega
    | nonId s =>
      have := ih (i + 1)
      simp only [po_aux, List.length_cons]
      omega

lemma countNonId_zero_all_identity :
    ∀ {l : List Obs}, countNonId l = 0 →
      ∀ k : Nat, l[k]? = some Obs.identity ∨ l[k]? = none := by
  intro l
  induction l with
  | nil => intro h k; simp
  | cons o rest ih =>
    intro h k
    cases o with
    | identity =>
      cases k with
      | zero => simp
      | succ j => simpa using ih (by simpa [countNonId] using h) j
    | nonId s => simp [countNonId] at h

lemma po_aux_fst_nil_of_all_identity {l : List Obs}
    (h : ∀ o ∈ l, o = Obs.identity) : ∀ i, (po_aux i l).1 = [] := by
  induction l with
  | nil => intro i; simp [po_aux]
  | cons o rest ih =>
    intro i
    have ho : o = Obs.identity := h o (by simp)
    subst ho
    simpa [po_aux] using ih (fun o hm => h o (by simp [hm])) (i + 1)

lemma pyInsert_append {α : Type} (x : α) (p vals : List α) :
    pyInsert (p ++ vals) p.length x = p ++ x :: vals := by
  unfold pyInsert
  rw [List.take_left, List.drop_left]

lemma splice_all_identity {α : Type} (one : α) :
    ∀ {l : List Obs}, countNonId l = 0 →
      ∀ vals : List α, spliceOnes one l vals = List.replicate l.length one := by
  intro l
  induction l with
  | nil => intro h vals; simp [spliceOnes]
  | cons o rest ih =>
    intro h vals
    cases o with
    | identity =>
      simp only [spliceOnes, List.length_cons, List.replicate_succ]
      rw [ih (by simpa [countNonId] using h) vals]
    | nonId s => simp [countNonId] at h

lemma splice_length {α : Type} (one : α) :
    ∀ (l : List Obs) (vals : List α), vals.length = countNonId l →
      (spliceOnes one l vals).length = l.length := by
  intro l
  induction l with
  | nil => intro vals h; simp [spliceOnes]
  | cons o rest ih =>
    intro vals h
    cases o with
    | identity =>
      simp only [spliceOnes, List.length_cons]
      rw [ih vals (by simpa [countNonId] using h)]
    | nonId s =>
      cases vals with
      | nil => simp [countNonId] at h
      | cons v vals' =>
        simp only [spliceOnes, List.length_cons]
        have h' : vals'.length = countNonId rest := by
          simp [countNonId] at h; omega
        rw [ih vals' h']

lemma foldl_pyInsert_splice {α : Type} (one : α) :
    ∀ (l : List Obs) (p vals : List α), vals.length = countNonId l →
      (po_aux p.length l).2.foldl (fun r i => pyInsert r i one) (p ++ vals) =
        p ++ spliceOnes one l vals := by
  intro l
  induction l with
  | nil =>
    intro p vals h
    simp [countNonId] at h
    simp [po_aux, spliceOnes, h]
  | cons o rest ih =>
    intro p vals h
    cases o with
    | identity =>
      have h2 := ih (p ++ [one]) vals (by simpa [countNonId] using h)
      rw [List.length_append, List.length_singleton] at h2
      simp only [po_aux, List.foldl_cons]
      rw [pyInsert_append]
      have h1 : p ++ one :: vals = (p ++ [one]) ++ vals := by simp
      rw [h1, h2]
      simp [spliceOnes]
    | nonId s =>
      cases vals with
      | nil => simp [countNonId] at h
      | cons v vals' =>
        have hlen : vals'.length = countNonId rest := by
          simp [countNonId] at h; omega
        have h2 := ih (p ++ [v]) vals' hlen
        rw [List.length_append, List.length_singleton] at h2
        simp only [po_aux]
        have h1 : p ++ v :: vals' = (p ++ [v]) ++ vals' := by simp
        rw [h1, h2]
        simp [spliceOnes]

lemma splice_getElem {α : Type} (one : α) :
    ∀ (l : List Obs) (vals : List α), vals.length = countNonId l →
      ∀ k : Nat,
        (l[k]? = some Obs.identity → (spliceOnes one l vals)[k]? = some one) ∧
        (∀ s, l[k]? = some (Obs.nonId s) →
          (spliceOnes one l vals)[k]? = vals[countNonId (l.take k)]?) := by
  intro l
  induction l with
  | nil => intro vals h k; constructor <;> simp
  | cons o rest ih =>
    intro vals h k
    cases o with
    | identity =>
      have h' : vals.length = countNonId rest := by simpa [countNonId] using h
      cases k with
      | zero => constructor <;> simp [spliceOnes]
      | succ j =>
        constructor
        · intro hid
          have := (ih vals h' j).1 (by simpa using hid)
          simpa [spliceOnes, countNonId] using this
        · intro s hs
          have := (ih vals h' j).2 s (by simpa using hs)
          simpa [spliceOnes, countNonId, List.take_succ_cons] using this
    | nonId s0 =>
      cases vals with
      | nil => simp [countNonId] at h
      | cons v vals' =>
        have h' : vals'.length = countNonId rest := by
          simp [countNonId] at h; omega
        cases k with
        | zero =>
          constructor
          · intro hid; simp at hid
          · intro s hs
            simp at hs
            simp [spliceOnes, countNonId]
        | succ j =>
          constructor
          · intro hid
            have := (ih vals' h' j).1 (by simpa using hid)
            simpa [spliceOnes, countNonId] using this
          · intro s hs
            have := (ih vals' h' j).2 s (by simpa using hs)
            simpa [spliceOnes, countNonId, List.take_succ_cons] using this

lemma build_steps_length (component backend_specs : String) (resources : Option String) :
    ∀ (pairs : List (String × String)) (i : Nat),
      (build_steps component backend_specs resources i pairs).length = pairs.length := by
  intro pairs
  induction pairs with
  | nil => intro i; simp [build_steps]
  | cons pr rest ih =>
    intro i
    cases pr
    simp [build_steps, ih]

lemma build_steps_getElem (component backend_specs : String) (resources : Option String) :
    ∀ (pairs : List (String × String)) (i k : Nat) (pr : String × String),
      pairs[k]? = some pr →
      (build_steps component backend_specs resources i pairs)[k]? =
        some (step_with_inputs component backend_specs resources (i + k) pr.1 pr.2) := by
  intro pairs
  induction pairs with
  | nil => intro i k pr h; simp at h
  | cons q rest ih =>
    intro i k pr h
    cases q with
    | mk circ ops =>
      cases k with
      | zero =>
        simp at h
        subst h
        simp [build_steps]
      | succ j =>
        simp only [List.getElem?_cons_succ] at h
        have h2 := ih (i + 1) j pr h
        have h3 : i + (j + 1) = (i + 1) + j := by omega
        simp only [build_steps, List.getElem?_cons_succ, h3]
        exact h2

lemma zip_getElem {β γ : Type} :
    ∀ (as : List β) (bs : List γ) (k : Nat) (a : β) (b : γ),
      as[k]? = some a → bs[k]? = some b → (as.zip bs)[k]? = some (a, b) := by
  intro as
  induction as with
  | nil => intro bs k a b h _; simp at h
  | cons x xs ih =>
    intro bs k a b ha hb
    cases bs with
    | nil => simp at hb
    | cons y ys =>
      cases k with
      | zero =>
        simp at ha hb
        subst ha
        subst hb
        simp [List.zip_cons_cons]
      | succ j =>
        simp only [List.getElem?_cons_succ] at ha hb
        simpa [List.zip_cons_cons] using ih ys j a b ha hb

lemma gen_expval_workflow_ok (component backend_specs : String)
    (circuits operators : List String) (resources : Option String)
    (bi : BackendImport) (hcomp : backend_import_db.lookup component = some bi) :
    gen_expval_workflow component backend_specs circuits operators resources =
      .ok { _get_expval_template with
              imports := _get_expval_template.imports ++ [bi]
              steps := build_steps component backend_specs resources 0
                         (circuits.zip operators) } := by
  simp [gen_expval_workflow, hcomp]

lemma execute_results_spliced {α : Type} (one : α) (component backend_specs : String)
    (circuit : Circuit) (resources : Option String) (vals : List α)
    (bi : BackendImport) (hcomp : backend_import_db.lookup component = some bi)
    (hvals : vals.length = countNonId circuit.observables) :
    ∃ out : SingleOutcome α,
      execute one component backend_specs circuit resources (fun _ => vals) = .ok out ∧
      out.results = spliceOnes one circuit.observables vals := by
  have hpo := process_observables_eq circuit.observables
  by_cases hempty : (po_aux 0 circuit.observables).1.isEmpty
  · refine ⟨⟨none, List.replicate (po_aux 0 circuit.observables).2.length one⟩, ?_, ?_⟩
    · simp [execute, hpo, hempty]
    · have hfst : (po_aux 0 circuit.observables).1 = [] := by
        simpa [List.isEmpty_iff] using hempty
      have hcnt : countNonId circuit.observables = 0 := by
        rw [← po_aux_fst_length circuit.observables 0, hfst]
        simp
      have hlen := po_aux_lengths circuit.observables 0
      rw [hfst] at hlen
      simp only [List.length_nil, Nat.zero_add] at hlen
      rw [splice_all_identity one hcnt vals, hlen]
  · have hgen := gen_expval_workflow_ok component backend_specs [circuit.qasm]
      [json_dumps_str_list (po_aux 0 circuit.observables).1] resources bi hcomp
    have hsplice := foldl_pyInsert_splice one circuit.observables [] vals hvals
    simp only [List.length_nil, List.nil_append] at hsplice
    refine ⟨⟨some { _get_expval_template with
        imports := _get_expval_template.imports ++ [bi]
        steps := build_steps component backend_specs resources 0
          ([circuit.qasm].zip [json_dumps_str_list (po_aux 0 circuit.observables).1]) },
      List.foldl (fun r i => pyInsert r i one) vals (po_aux 0 circuit.observables).2⟩,
      ?_, ?_⟩
    · simp [execute, hpo, hempty, hgen]
    · exact hsplice

lemma all_empty_all_any {β : Type} :
    ∀ l : List (List β), l ≠ [] → (∀ x ∈ l, x = []) →
      (l.all fun o => !o.isEmpty) = false ∧ (l.any fun o => !o.isEmpty) = false := by
  intro l hne hmem
  constructor
  · cases l with
    | nil => exact absurd rfl hne
    | cons x xs =>
      have hx : x = [] := hmem x (by simp)
      subst hx
      simp
  · rw [List.any_eq_false]
    intro x hx
    rw [hmem x hx]
    simp

/-- Claim C1 (code-bug evidence): `multiple_steps_results` sorts artifact
entries by the raw `stepName` string.  On a 12-step artifact with step
names `run-circuit-and-get-expval-0 .. -11` (insertion order reversed),
the returned per-step result lists come out in lexicographic string order
`0, 1, 10, 11, 2, ..., 9`, not in ascending numeric order of the index
suffix as the claim requires. -/
theorem multiple_steps_results_is_lexicographic :
    multiple_steps_results twelveStepArtifact =
      [[0], [1], [10], [11], [2], [3], [4], [5], [6], [7], [8], [9]] ∧
    multiple_steps_results twelveStepArtifact ≠
      [[0], [1], [2], [3], [4], [5], [6], [7], [8], [9], [10], [11]] := by
  decide

/-- Claim C2 (code-bug evidence): on a batch whose first circuit is
identity-only and whose second circuit has the single observable
`1 [Z0]`, `multi_step_execute` submits a workflow with a single step that
pairs the *identity-only* circuit's serialized form `"qasm0"` with the
second circuit's operator list, instead of pairing `"qasm1"` with its own
operators; `"qasm1"` is never submitted. -/
theorem multi_step_execute_misaligned_pairing :
    okSubmittedInputs (multi_step_execute (1 : Int) "qe-forest" "specs"
        mixedIdentityBatch none (fun _ => [[5]])) =
      some [[⟨"backend_specs", "specs", "string"⟩,
             ⟨"operators", "[\"1 [Z0]\"]", "string"⟩,
             ⟨"circuit", "qasm0", "string"⟩]] ∧
    okResults (multi_step_execute (1 : Int) "qe-forest" "specs"
        mixedIdentityBatch none (fun _ => [[5]])) = some [[1], [5]] := by
  decide

/-- Claim C5: if every circuit in a (nonempty) batch has an
entirely-identity observable list, `multi_step_execute` submits no
workflow at all (outcome `submitted = none`, independent of the remote
oracle) and returns one all-ones list per circuit, of that circuit's own
observable count. -/
theorem multi_step_execute_all_identity {α : Type} (one : α)
    (component backend_specs : String) (circuits : List Circuit)
    (resources : Option String) (remote : Workflow → List (List α))
    (hne : circuits ≠ [])
    (hid : ∀ c ∈ circuits, ∀ o ∈ c.observables, o = Obs.identity) :
    multi_step_execute one component backend_specs circuits resources remote =
      .ok ⟨none, circuits.map (fun c => List.replicate c.observables.length one)⟩ := by
  have hmem : ∀ x ∈ (circuits.map fun c => process_observables c.observables).map
      (fun p => p.1), x = [] := by
    intro x hx
    simp only [List.map_map, List.mem_map, Function.comp] at hx
    obtain ⟨c, hc, rfl⟩ := hx
    rw [process_observables_eq]
    exact po_aux_fst_nil_of_all_identity (hid c hc) 0
  have hne2 : (circuits.map fun c => process_observables c.observables).map
      (fun p => p.1) ≠ [] := by
    simp [hne]
  obtain ⟨hall, hany⟩ := all_empty_all_any _ hne2 hmem
  simp only [multi_step_execute, hall, hany]
  simp

/-- Witness for C5 at a concrete two-circuit all-identity batch, with a
remote oracle that would return garbage if it were consulted. -/
theorem multi_step_execute_all_identity_witness :
    multi_step_execute (1 : Int) "qe-forest" "specs" allIdentityBatch none
        (fun _ => [[99]]) =
      .ok ⟨none, allIdentityBatch.map (fun c => List.replicate c.observables.length 1)⟩ :=
  multi_step_execute_all_identity 1 "qe-forest" "specs" allIdentityBatch none
    (fun _ => [[99]]) (by decide) (by decide)

/-- Claim C6 (counterexample): for the unsupported backend component
`"qe-cirq"`, `gen_expval_workflow` raises the fixed message
`"The specified backend component is not supported."`, which does not
contain (hence does not name) the invalid backend component. -/
theorem gen_expval_workflow_error_does_not_name_component :
    gen_expval_workflow "qe-cirq" "specs" ["circuit"] ["ops"] none =
      .error "The specified backend component is not supported." ∧
    strContains "qe-cirq" "The specified backend component is not supported." = false := by
  decide

/-- Claim C6 (amended): for every backend component that is not a key of
`backend_import_db` and any circuits/operator lists, `gen_expval_workflow`
raises an error with the fixed message
`"The specified backend component is not supported."` (the message does
not depend on, and so never names, the invalid component). -/
theorem gen_expval_workflow_unsupported_fixed_message
    (component backend_specs : String) (circuits operators : List String)
    (resources : Option String)
    (hcomp : backend_import_db.lookup component = none) :
    gen_expval_workflow component backend_specs circuits operators resources =
      .error "The specified backend component is not supported." := by
  simp [gen_expval_workflow, hcomp]

/-- Witness for the amended C6 at the concrete component `"qe-cirq"`. -/
theorem gen_expval_workflow_unsupported_fixed_message_witness :
    backend_import_db.lookup "qe-cirq" = none ∧
    gen_expval_workflow "qe-cirq" "specs" ["c"] ["o"] none =
      .error "The specified backend component is not supported." :=
  ⟨by decide,
   gen_expval_workflow_unsupported_fixed_message "qe-cirq" "specs" ["c"] ["o"] none
     (by decide)⟩

/-- Claim C3: for every supported backend component and equal-length
circuit/operator sequences, `gen_expval_workflow` returns a document with
one step per (circuit, operator-list) pair, and the `k`-th step is named
with suffix `k` and carries exactly the input triple
`(backend_specs, operators[k], circuits[k])` in that order. -/
theorem gen_expval_workflow_step_structure (component backend_specs : String)
    (circuits operators : List String) (resources : Option String)
    (bi : BackendImport) (hcomp : backend_import_db.lookup component = some bi)
    (hlen : circuits.length = operators.length) :
    ∃ wf, gen_expval_workflow component backend_specs circuits operators resources =
        .ok wf ∧
      wf.steps.length = circuits.length ∧
      ∀ (k : Nat) (circ ops : String),
        circuits[k]? = some circ → operators[k]? = some ops →
        ∃ st, wf.steps[k]? = some st ∧
          st.name = "run-circuit-and-get-expval-" ++ toString k ∧
          st.inputs = [⟨"backend_specs", backend_specs, "string"⟩,
                       ⟨"operators", ops, "string"⟩,
                       ⟨"circuit", circ, "string"⟩] := by
  refine ⟨_, gen_expval_workflow_ok component backend_specs circuits operators
    resources bi hcomp, ?_, ?_⟩
  · simp [build_steps_length, List.length_zip, hlen]
  · intro k circ ops hc ho
    have hz := zip_getElem circuits operators k circ ops hc ho
    have hb := build_steps_getElem component backend_specs resources
      (circuits.zip operators) 0 k (circ, ops) hz
    refine ⟨step_with_inputs component backend_specs resources (0 + k) circ ops,
      hb, ?_, ?_⟩
    · simp [step_with_inputs, step_dictionary]
    · simp [step_with_inputs]

/-- Witness for C3 at the component `"qe-forest"` with two circuits and
two operator lists. -/
theorem gen_expval_workflow_step_structure_witness :
    ∃ wf, gen_expval_workflow "qe-forest" "specs" ["c0", "c1"] ["o0", "o1"] none =
        .ok wf ∧
      wf.steps.length = ["c0", "c1"].length ∧
      ∀ (k : Nat) (circ ops : String),
        ["c0", "c1"][k]? = some circ → ["o0", "o1"][k]? = some ops →
        ∃ st, wf.steps[k]? = some st ∧
          st.name = "run-circuit-and-get-expval-" ++ toString k ∧
          st.inputs = [⟨"backend_specs", "specs", "string"⟩,
                       ⟨"operators", ops, "string"⟩,
                       ⟨"circuit", circ, "string"⟩] :=
  gen_expval_workflow_step_structure "qe-forest" "specs" ["c0", "c1"] ["o0", "o1"]
    none forest_import (by decide) (by decide)

/-- Claim C10: with circuit and operator sequences of unequal length (and
a supported component), `gen_expval_workflow` raises no error and
produces a document with exactly `min` of the two lengths many steps,
pairing the sequences index-by-index over the common prefix. -/
theorem gen_expval_workflow_length_mismatch (component backend_specs : String)
    (circuits operators : List String) (resources : Option String)
    (bi : BackendImport) (hcomp : backend_import_db.lookup component = some bi)
    (_hne : circuits.length ≠ operators.length) :
    ∃ wf, gen_expval_workflow component backend_specs circuits operators resources =
        .ok wf ∧
      wf.steps.length = min circuits.length operators.length ∧
      ∀ (k : Nat) (circ ops : String),
        circuits[k]? = some circ → operators[k]? = some ops →
        ∃ st, wf.steps[k]? = some st ∧
          st.inputs = [⟨"backend_specs", backend_specs, "string"⟩,
                       ⟨"operators", ops, "string"⟩,
                       ⟨"circuit", circ, "string"⟩] := by
  refine ⟨_, gen_expval_workflow_ok component backend_specs circuits operators
    resources bi hcomp, ?_, ?_⟩
  · simp [build_steps_length, List.length_zip]
  · intro k circ ops hc ho
    have hz := zip_getElem circuits operators k circ ops hc ho
    have hb := build_steps_getElem component backend_specs resources
      (circuits.zip operators) 0 k (circ, ops) hz
    exact ⟨step_with_inputs component backend_specs resources (0 + k) circ ops,
      hb, by simp [step_with_inputs]⟩

/-- Witness for C10: three circuits and one operator list give exactly
one step, pairing the first circuit with the operator list. -/
theorem gen_expval_workflow_length_mismatch_witness :
    ∃ wf, gen_expval_workflow "qe-forest" "specs" ["c0", "c1", "c2"] ["o0"] none =
        .ok wf ∧
      wf.steps.length = min ["c0", "c1", "c2"].length ["o0"].length ∧
      ∀ (k : Nat) (circ ops : String),
        ["c0", "c1", "c2"][k]? = some circ → ["o0"][k]? = some ops →
        ∃ st, wf.steps[k]? = some st ∧
          st.inputs = [⟨"backend_specs", "specs", "string"⟩,
                       ⟨"operators", ops, "string"⟩,
                       ⟨"circuit", circ, "string"⟩] :=
  gen_expval_workflow_length_mismatch "qe-forest" "specs" ["c0", "c1", "c2"] ["o0"]
    none forest_import (by decide) (by decide)

/-- Claim C4: for a circuit with `n` observables, identity at a set `I`
of positions, and a remote computation supplying exactly `n - |I|` values
for the non-identity positions, the single-circuit `execute` path returns
a length-`n` result list with `1` at every position of `I` and the
corresponding remote value (in order) at every other position, for any
size and distribution of `I`. -/
theorem execute_identity_splice {α : Type} (one : α)
    (component backend_specs : String) (circuit : Circuit)
    (resources : Option String) (vals : List α)
    (bi : BackendImport) (hcomp : backend_import_db.lookup component = some bi)
    (hvals : vals.length = countNonId circuit.observables) :
    ∃ out : SingleOutcome α,
      execute one component backend_specs circuit resources (fun _ => vals) =
        .ok out ∧
      out.results.length = circuit.observables.length ∧
      (∀ k : Nat, circuit.observables[k]? = some Obs.identity →
        out.results[k]? = some one) ∧
      (∀ (k : Nat) (s : String), circuit.observables[k]? = some (Obs.nonId s) →
        out.results[k]? = vals[countNonId (circuit.observables.take k)]?) := by
  obtain ⟨out, hexec, hres⟩ := execute_results_spliced one component backend_specs
    circuit resources vals bi hcomp hvals
  refine ⟨out, hexec, ?_, ?_, ?_⟩
  · rw [hres]
    exact splice_length one circuit.observables vals hvals
  · intro k hk
    rw [hres]
    exact (splice_getElem one circuit.observables vals hvals k).1 hk
  · intro k s hk
    rw [hres]
    exact (splice_getElem one circuit.observables vals hvals k).2 s hk

/-- Witness for C4 at a concrete circuit with identities at positions 0
and 2 and remote values `[7, 9]` for positions 1 and 3. -/
theorem execute_identity_splice_witness :
    ∃ out : SingleOutcome Int,
      execute 1 "qe-forest" "specs" witnessCircuit none (fun _ => [7, 9]) =
        .ok out ∧
      out.results.length = witnessCircuit.observables.length ∧
      (∀ k : Nat, witnessCircuit.observables[k]? = some Obs.identity →
        out.results[k]? = some 1) ∧
      (∀ (k : Nat) (s : String),
        witnessCircuit.observables[k]? = some (Obs.nonId s) →
        out.results[k]? = [(7 : Int), 9][countNonId (witnessCircuit.observables.take k)]?) :=
  execute_identity_splice 1 "qe-forest" "specs" witnessCircuit none [7, 9]
    forest_import (by decide) (by decide)

/-- Claim C7: `qe_submit` raises a submission error carrying the raw
output exactly when the substring `"Success"` does not appear in the
concatenated output; when it does appear, the workflow handle is the last
whitespace-split token of the second output line, with a response-format
error raised when that line/token position does not exist, and the
extracted handle returned otherwise. -/
theorem qe_submit_success_detection (res : List String) (keep_file : Bool) :
    (strContains "Success" (String.join res) = false →
      (qe_submit res keep_file).result = .error (.submissionError res)) ∧
    (strContains "Success" (String.join res) = true →
      (((res[1]?).bind fun line => (pySplitWs line).getLast?) = none →
        (qe_submit res keep_file).result =
          .error (.responseFormatError unexpected_resp_msg)) ∧
      (∀ workflow_id,
        ((res[1]?).bind fun line => (pySplitWs line).getLast?) = some workflow_id →
        (qe_submit res keep_file).result = .ok workflow_id)) := by
  refine ⟨?_, ?_⟩
  · intro h
    simp [qe_submit, h]
  · intro h
    refine ⟨?_, ?_⟩
    · intro hnone
      cases hline : res[1]? with
      | none => simp [qe_submit, h, hline]
      | some line =>
        rw [hline] at hnone
        simp at hnone
        simp [qe_submit, h, hline, hnone]
    · intro workflow_id hsome
      cases hline : res[1]? with
      | none =>
        rw [hline] at hsome
        simp at hsome
      | some line =>
        rw [hline] at hsome
        simp at hsome
        simp [qe_submit, h, hline, hsome]

/-- Witness for C7: a two-line output containing `"Success"` yields the
last token of the second line as the workflow handle. -/
theorem qe_submit_success_detection_witness :
    strContains "Success" (String.join ["Successfully submitted!", "Workflow ID: wf-123"]) = true ∧
    (qe_submit ["Successfully submitted!", "Workflow ID: wf-123"] false).result = .ok "wf-123" :=
  ⟨by decide,
   ((qe_submit_success_detection ["Successfully submitted!", "Workflow ID: wf-123"] false).2
     (by decide)).2 "wf-123" (by decide)⟩

/-- Claim C9: whenever the submission output contains `"Success"` and
`keep_file` is false, `qe_submit` removes the workflow file before
validating the response shape, so the file is deleted whatever the
subsequent extraction outcome is. -/
theorem qe_submit_removes_file_before_shape_check (res : List String)
    (h : strContains "Success" (String.join res) = true) :
    (qe_submit res false).fileDeleted = true := by
  simp only [qe_submit, h, Bool.not_true, Bool.false_eq_true, if_false]
  cases hline : res[1]? with
  | none => simp [hline]
  | some line =>
    cases htok : (pySplitWs line).getLast? with
    | none => simp [hline, htok]
    | some workflow_id => simp [hline, htok]

/-- Witness for C9: on a one-line successful-looking output the handle
extraction fails with a response-format error, yet the file has already
been deleted. -/
theorem qe_submit_removes_file_before_shape_check_witness :
    strContains "Success" (String.join ["Success"]) = true ∧
    (qe_submit ["Success"] false).fileDeleted = true ∧
    (qe_submit ["Success"] false).result =
      .error (.responseFormatError unexpected_resp_msg) :=
  ⟨by decide,
   qe_submit_removes_file_before_shape_check ["Success"] (by decide),
   by decide⟩

/-- Claim C8: in the polling loop, the failed-status check runs exactly on
the iterations whose counter is a (positive) multiple of 20 that survive
the timeout check; at such an iteration, if `"Failed"` occurs among the
whitespace-split tokens of the status text, the iteration (and hence the
loop, before its timeout would elapse) terminates with a remote-execution
failure carrying the status text; on all other iterations no status-based
failure check is performed. -/
theorem loop_failed_check_throttled (env : PollEnv) (timeout tries : Nat) :
    ((loop_iteration env timeout tries).2 = true ↔
      env.elapsed tries ≤ timeout ∧ tries % 20 = 0) ∧
    (tries % 20 ≠ 0 → (loop_iteration env timeout tries).2 = false) ∧
    (env.elapsed tries ≤ timeout → tries % 20 = 0 →
      failed_token_check (env.status tries) = true →
      (loop_iteration env timeout tries).1 = .remoteFailed (env.status tries)) ∧
    (∀ s fuel : Nat, env.elapsed (s + 1) ≤ timeout → (s + 1) % 20 = 0 →
      failed_token_check (env.status (s + 1)) = true →
      loop_until_finished_from env timeout (fuel + 1) s =
        .remoteFailed (s + 1) (env.status (s + 1))) := by
  have hmain : ∀ t : Nat, env.elapsed t ≤ timeout → t % 20 = 0 →
      failed_token_check (env.status t) = true →
      (loop_iteration env timeout t).1 = .remoteFailed (env.status t) := by
    intro t h1 h2 h3
    simp [loop_iteration, Nat.not_lt.mpr h1, h2, h3]
  refine ⟨?_, ?_, hmain tries, ?_⟩
  · constructor
    · intro hflag
      by_cases h1 : env.elapsed tries > timeout
      · simp [loop_iteration, h1] at hflag
      · by_cases h2 : tries % 20 = 0
        · exact ⟨by omega, h2⟩
        · simp [loop_iteration, h1, h2] at hflag
    · rintro ⟨h1, h2⟩
      by_cases h3 : failed_token_check (env.status tries) = true
      · simp [loop_iteration, Nat.not_lt.mpr h1, h2, h3]
      · simp [loop_iteration, Nat.not_lt.mpr h1, h2, h3]
  · intro h2
    by_cases h1 : env.elapsed tries > timeout
    · simp [loop_iteration, h1]
    · simp [loop_iteration, h1, h2]
  · intro s fuel h1 h2 h3
    have hm := hmain (s + 1) h1 h2 h3
    simp [loop_until_finished_from, hm]

/-- Witness for C8 at the concrete environment `failedPollEnv`: at
iteration 20 the check is performed and the loop fails immediately, while
at iteration 7 no check is performed. -/
theorem loop_failed_check_throttled_witness :
    (loop_iteration failedPollEnv 600 20).2 = true ∧
    (loop_iteration failedPollEnv 600 7).2 = false ∧
    (loop_iteration failedPollEnv 600 20).1 = .remoteFailed ["Status: Failed"] ∧
    loop_until_finished_from failedPollEnv 600 (5 + 1) 19 =
      .remoteFailed 20 ["Status: Failed"] :=
  ⟨(loop_failed_check_throttled failedPollEnv 600 20).1.mpr ⟨by decide, by decide⟩,
   (loop_failed_check_throttled failedPollEnv 600 7).2.1 (by decide),
   (loop_failed_check_throttled failedPollEnv 600 20).2.2.1 (by decide) (by decide)
     (by decide),
   (loop_failed_check_throttled failedPollEnv 600 20).2.2.2 19 5 (by decide) (by decide)
     (by decide)⟩

end PLOrquestra
